import Mathlib

/-!
Shallow embedding of the acquisition / buffer-drain layer of the
`pytest_analog` Analog Discovery wrapper
(`src/pytest_analog/analog_discovery_wrapper.py`), together with theorems
checking the natural-language specification against it.

The vendor library boundary (every `self._dwf.FDwf...` call) is modelled as
environment data: each polling iteration of a drain loop is a record holding
the device state code returned by `FDwfAnalogInStatus`, the
(available, lost, corrupted) triple returned by `FDwfAnalogInStatusRecord`,
the raw block materialised for fetching, and the return code of the
`FDwfAnalogInStatusData16` fetch.  Python ints are `Int`/`Nat`, Python floats
are modelled on `ℚ` (exact field arithmetic) except for the transcendental
frequency-sweep schedule, which is modelled on `ℝ`.
-/

namespace PytestAnalog

/-- `SUCCESS_RETURN_CODE = 1` (analog_discovery_wrapper.py line 351). -/
def SUCCESS_RETURN_CODE : Int := 1

/-- Device state codes bound from the vendor `dwfconstants` module
(not part of this repository; values are the WaveForms SDK constants).
`fill_recorded_samples_2` hardcodes `status == 2  # done`, matching
`DwfStateDone.value = 2`. -/
def DwfStateReady : Int := 0

/-- WaveForms SDK constant `DwfStateArmed.value`. -/
def DwfStateArmed : Int := 1

/-- WaveForms SDK constant `DwfStateDone.value`. -/
def DwfStateDone : Int := 2

/-- WaveForms SDK constant `DwfStateRunning.value` (= `DwfStateTriggered`). -/
def DwfStateRunning : Int := 3

/-- WaveForms SDK constant `DwfStateConfig.value`. -/
def DwfStateConfig : Int := 4

/-- WaveForms SDK constant `DwfStatePrefill.value`. -/
def DwfStatePrefill : Int := 5

/-- WaveForms SDK constant `DwfStateWait.value`. -/
def DwfStateWait : Int := 7

/-- Raw int16 ADC value to volts:
`value * (range / 65536) + offset`, exactly the arithmetic of
`results_array = np.fromiter(rgSamples, dtype=np.int16) * conversion_factor`
followed by `+ ch_offset`, with
`conversion_factor = range / 65536` and `ch_offset` the channel offset. -/
def convertSample (range offset : ℚ) (r : Int) : ℚ :=
  (r : ℚ) * (range / 65536) + offset

/-- One polling iteration's worth of device responses during a drain loop. -/
structure FifoPoll where
  /-- state code returned by `FDwfAnalogInStatus(read_data=True)` -/
  status : Int
  /-- `cAvailable` from `FDwfAnalogInStatusRecord` -/
  available : Nat
  /-- `cLost` from `FDwfAnalogInStatusRecord` -/
  lost : Nat
  /-- `cCorrupted` from `FDwfAnalogInStatusRecord` -/
  corrupted : Nat
  /-- raw block the device would deliver to `FDwfAnalogInStatusData16` -/
  data : List Int
  /-- return code of the `FDwfAnalogInStatusData16` call -/
  fetchCode : Int
deriving DecidableEq

/-- The Python local variables of `fill_recorded_samples` that live across
loop iterations.  `result` is `none` while the Python local `result` is
still unbound. -/
structure FifoState where
  cSamples : Int
  cLost : Nat
  cCorrupted : Nat
  buf : List Int
  result : Option Int
deriving DecidableEq

/-- Overwrite `buf[pos .. pos+|chunk|)` with `chunk`, truncating the chunk at
the end of the buffer (the drains clamp so that truncation never happens in a
real run); models the `byref(rgSamples, sizeof(c_int16)*pos)` destination of
`FDwfAnalogInStatusData16`. -/
def writeChunk (buf : List Int) (pos : Nat) (chunk : List Int) : List Int :=
  buf.take pos ++ chunk.take (buf.length - pos) ++ buf.drop (pos + chunk.length)

theorem writeChunk_length (buf : List Int) (pos : Nat) (chunk : List Int) :
    (writeChunk buf pos chunk).length = buf.length := by
  simp [writeChunk]
  omega

/-- One iteration of the `while cSamples < samples_count` body of
`fill_recorded_samples` (lines 2902-2938): skip while the acquisition has not
started, record the counters, advance the cursor by `cLost`, skip when nothing
is available, clamp `cAvailable`, fetch into the buffer at the cursor, advance
the cursor by `cAvailable`. -/
def fifoStep (samples_count : Nat) (p : FifoPoll) (s : FifoState) : FifoState :=
  if s.cSamples = 0 ∧ (p.status = DwfStateConfig ∨ p.status = DwfStatePrefill ∨
      p.status = DwfStateArmed) then
    s
  else
    let cSamples1 : Int := s.cSamples + p.lost
    if p.available = 0 then
      { s with cSamples := cSamples1, cLost := p.lost, cCorrupted := p.corrupted }
    else
      let cAvailable : Int :=
        if cSamples1 + p.available > (samples_count : Int) then
          (samples_count : Int) - cSamples1
        else (p.available : Int)
      { cSamples := cSamples1 + cAvailable
        cLost := p.lost
        cCorrupted := p.corrupted
        buf := writeChunk s.buf cSamples1.toNat (p.data.take cAvailable.toNat)
        result := some p.fetchCode }

/-- The `while cSamples < samples_count` loop, driven by the finite list of
poll responses; `none` when the trace is exhausted with the loop still
spinning. -/
def fifoLoop (samples_count : Nat) : List FifoPoll → FifoState → Option FifoState
  | [], s => if s.cSamples < (samples_count : Int) then none else some s
  | p :: rest, s =>
      if s.cSamples < (samples_count : Int) then
        fifoLoop samples_count rest (fifoStep samples_count p s)
      else some s

/-- Initial state of `fill_recorded_samples`: cursor and counters zero, the
`(c_int16 * samples_count)()` buffer zero-initialised, `result` unbound. -/
def fifoInit (samples_count : Nat) : FifoState :=
  ⟨0, 0, 0, List.replicate samples_count 0, none⟩

/-- Observable outcome of a drain call. -/
inductive DrainOutcome where
  /-- normal return: converted samples plus whether the lost / corrupted
  warnings were logged -/
  | ok (samples : List ℚ) (warnLost warnCorrupted : Bool)
  /-- `raise PyDwfError(...)` -/
  | deviceError
  /-- Python `UnboundLocalError` from reading the never-assigned `result` -/
  | unboundLocalError
  /-- the poll trace ended while the loop was still running -/
  | incomplete
  /-- the inner copy loop of the circular drain spins forever -/
  | stuck
deriving DecidableEq

/-- `fill_recorded_samples(input_channel, samples_count)` (lines 2878-2959):
run the FIFO drain loop over the poll trace, then check the last fetch's
return code, log the warnings from the final values of `cLost`/`cCorrupted`,
and convert the whole raw buffer with the channel's range and offset. -/
def fill_recorded_samples (range offset : ℚ) (polls : List FifoPoll)
    (samples_count : Nat) : DrainOutcome :=
  match fifoLoop samples_count polls (fifoInit samples_count) with
  | none => .incomplete
  | some s =>
    match s.result with
    | none => .unboundLocalError
    | some code =>
      if code ≠ SUCCESS_RETURN_CODE then .deviceError
      else
        .ok (s.buf.map (convertSample range offset))
          (decide (0 < s.cLost)) (decide (0 < s.cCorrupted))

/-- One polling iteration's device responses for the circular drain
`fill_recorded_samples_2`. -/
structure CircPoll where
  status : Int
  available : Nat
  lost : Nat
  corrupted : Nat
  data : List Int
  fetchCode : Int
deriving DecidableEq

/-- Cross-iteration locals of `fill_recorded_samples_2`: the ring write
cursor `iSample`, the ring `rgSamples`, the last poll's loss counters, and
the last fetch's return code (`none` while unbound). -/
structure CircState where
  iSample : Nat
  ring : List Int
  cLost : Nat
  cCorrupted : Nat
  result : Option Int
deriving DecidableEq

/-- The inner `while cAvailable > 0` copy loop of `fill_recorded_samples_2`
(lines 3086-3101): copy `cSamples = min(cAvailable, samples_count - iSample)`
raw values from the materialised block at source index `iBuffer` to the ring
at `iSample`, wrapping the cursor modulo `samples_count`.  The first argument
is fuel; at every pass at least one sample is consumed, so fuel equal to the
initial `cAvailable` always suffices.  `none` models the Python loop spinning
forever, which happens only when the chunk size comes out zero (impossible
for a cursor `< samples_count`). -/
def circInner (samples_count : Nat) : Nat → Nat → Nat → Nat → List Int →
    List Int → Option Int → Int → Option CircState
  | 0, cAvailable, iSample, _, _, ring, result, _ =>
      if cAvailable = 0 then some ⟨iSample, ring, 0, 0, result⟩ else none
  | fuel + 1, cAvailable, iSample, iBuffer, data, ring, result, fetchCode =>
      if cAvailable = 0 then some ⟨iSample, ring, 0, 0, result⟩
      else
        let cSamples :=
          if iSample + cAvailable > samples_count then samples_count - iSample
          else cAvailable
        if cSamples = 0 then none
        else
          circInner samples_count fuel (cAvailable - cSamples)
            ((iSample + cSamples) % samples_count) (iBuffer + cSamples) data
            (writeChunk ring iSample ((data.drop iBuffer).take cSamples))
            (some fetchCode) fetchCode

/-- Loop-exit status of the outer `while True` of
`fill_recorded_samples_2`. -/
inductive CircOut where
  | done (s : CircState)
  | deviceError
  | unboundLocalError
  | incomplete
  | stuck
deriving DecidableEq

/-- The outer `while True` polling loop of `fill_recorded_samples_2`
(lines 3080-3108): poll, advance the cursor by `cLost` modulo the ring size,
run the inner copy loop, break when the polled state is `2` (done), otherwise
raise if the last fetch failed (reading `result` before any fetch is an
unbound local).  Note `samples_count = 0` would raise `ZeroDivisionError` at
`iSample %= samples_count` in Python and is not modelled. -/
def circLoop (samples_count : Nat) : List CircPoll → CircState → CircOut
  | [], _ => .incomplete
  | p :: rest, s =>
      let iSample1 := (s.iSample + p.lost) % samples_count
      match circInner samples_count p.available p.available iSample1 0 p.data
          s.ring s.result p.fetchCode with
      | none => .stuck
      | some t =>
        let s2 : CircState := ⟨t.iSample, t.ring, p.lost, p.corrupted, t.result⟩
        if p.status = 2 then .done s2
        else
          match t.result with
          | none => .unboundLocalError
          | some code =>
              if code ≠ SUCCESS_RETURN_CODE then .deviceError
              else circLoop samples_count rest s2

/-- Initial state of `fill_recorded_samples_2`. -/
def circInit (samples_count : Nat) : CircState :=
  ⟨0, List.replicate samples_count 0, 0, 0, none⟩

/-- `fill_recorded_samples_2(input_channel, samples_count)`
(lines 3052-3129): run the circular drain loop; on `done`, log warnings from
the final `cLost`/`cCorrupted`, rotate the ring by the final cursor when it
is nonzero (`rgSamples = rgSamples[iSample:] + rgSamples[:iSample]`), and
convert to volts. -/
def fill_recorded_samples_2 (range offset : ℚ) (polls : List CircPoll)
    (samples_count : Nat) : DrainOutcome :=
  match circLoop samples_count polls (circInit samples_count) with
  | .done s =>
      let rg :=
        if s.iSample ≠ 0 then s.ring.drop s.iSample ++ s.ring.take s.iSample
        else s.ring
      .ok (rg.map (convertSample range offset))
        (decide (0 < s.cLost)) (decide (0 < s.cCorrupted))
  | .deviceError => .deviceError
  | .unboundLocalError => .unboundLocalError
  | .stuck => .stuck
  | .incomplete => .incomplete

/-- One polling iteration's device responses for the multi-channel FIFO
drain `fill_recorded_samples_on_channels`; the materialised block and the
fetch return code depend on the channel index being fetched. -/
structure MultiPoll where
  status : Int
  available : Nat
  lost : Nat
  corrupted : Nat
  dataOf : Nat → List Int
  fetchCodeOf : Nat → Int

/-- Cross-iteration locals of `fill_recorded_samples_on_channels`:
one buffer per requested channel (in list order) plus the shared cursor,
counters and last fetch code. -/
structure MultiState where
  cSamples : Int
  cLost : Nat
  cCorrupted : Nat
  bufs : List (List Int)
  result : Option Int
deriving DecidableEq

/-- The `for i, ch in enumerate(input_channels)` fetch pass (lines
3016-3023): fetch the same clamped window into every channel's buffer, the
shared `result` variable being overwritten by each channel's return code in
turn. -/
def multiFetch (dataOf : Nat → List Int) (fetchCodeOf : Nat → Int)
    (pos len : Nat) :
    List Nat → List (List Int) → Option Int → List (List Int) × Option Int
  | [], bufs, result => (bufs, result)
  | _ :: _, [], result => ([], result)
  | ch :: chs, b :: bs, _ =>
      let r := multiFetch dataOf fetchCodeOf pos len chs bs (some (fetchCodeOf ch))
      (writeChunk b pos ((dataOf ch).take len) :: r.1, r.2)

/-- One iteration of the `while cSamples < samples_count` body of
`fill_recorded_samples_on_channels` (lines 2989-3028): identical to the
single-channel FIFO step except that the fetch pass runs over all requested
channels. -/
def multiStep (samples_count : Nat) (channels : List Nat) (p : MultiPoll)
    (s : MultiState) : MultiState :=
  if s.cSamples = 0 ∧ (p.status = DwfStateConfig ∨ p.status = DwfStatePrefill ∨
      p.status = DwfStateArmed) then
    s
  else
    let cSamples1 : Int := s.cSamples + p.lost
    if p.available = 0 then
      { s with cSamples := cSamples1, cLost := p.lost, cCorrupted := p.corrupted }
    else
      let cAvailable : Int :=
        if cSamples1 + p.available > (samples_count : Int) then
          (samples_count : Int) - cSamples1
        else (p.available : Int)
      let f := multiFetch p.dataOf p.fetchCodeOf cSamples1.toNat
        cAvailable.toNat channels s.bufs s.result
      { cSamples := cSamples1 + cAvailable
        cLost := p.lost
        cCorrupted := p.corrupted
        bufs := f.1
        result := f.2 }

/-- The multi-channel drain loop over the poll trace. -/
def multiLoop (samples_count : Nat) (channels : List Nat) :
    List MultiPoll → MultiState → Option MultiState
  | [], s => if s.cSamples < (samples_count : Int) then none else some s
  | p :: rest, s =>
      if s.cSamples < (samples_count : Int) then
        multiLoop samples_count channels rest (multiStep samples_count channels p s)
      else some s

/-- Initial state: one zeroed `(c_int16 * samples_count)()` buffer per
channel. -/
def multiInit (samples_count : Nat) (channels : List Nat) : MultiState :=
  ⟨0, 0, 0, channels.map (fun _ => List.replicate samples_count 0), none⟩

/-- Observable outcome of the multi-channel drain. -/
inductive MultiOutcome where
  | ok (samples : List (List ℚ)) (warnLost warnCorrupted : Bool)
  | deviceError
  | unboundLocalError
  /-- Python `IndexError` from `input_channels[0]` on an empty list -/
  | indexError
  | incomplete
deriving DecidableEq

/-- `fill_recorded_samples_on_channels(input_channels, samples_count)`
(lines 2961-3050): the range and offset are queried once, from
`input_channels[0]` only, and that single conversion factor and offset are
applied to every channel's buffer; after the loop the shared `result`
(the last channel's code from the final fetch pass) is checked. -/
def fill_recorded_samples_on_channels (rangeOf offsetOf : Nat → ℚ)
    (channels : List Nat) (polls : List MultiPoll)
    (samples_count : Nat) : MultiOutcome :=
  match channels with
  | [] => .indexError
  | ch0 :: _ =>
    match multiLoop samples_count channels polls (multiInit samples_count channels) with
    | none => .incomplete
    | some s =>
      match s.result with
      | none => .unboundLocalError
      | some code =>
        if code ≠ SUCCESS_RETURN_CODE then .deviceError
        else
          .ok (s.bufs.map (fun b => b.map (convertSample (rangeOf ch0) (offsetOf ch0))))
            (decide (0 < s.cLost)) (decide (0 < s.cCorrupted))

/-- A native call observable at the device boundary during a flow. -/
inductive NativeCall where
  /-- `FDwfAnalogInChannelEnableGet` / `FDwfAnalogOutNodeEnableGet` query -/
  | enableQuery (ch : Nat)
  /-- one of the parameter-programming `FDwfAnalogOut...Set` calls -/
  | progCall (ch : Nat) (idx : Nat)
deriving DecidableEq

/-- `_verify_channels_enable_status` (lines 1528-1537): query each channel's
enable state in order, raising `RuntimeError` at the first channel whose
state is not `1`.  Returns the enable queries issued and the offending
channel, if any. -/
def verify_channels_enable_status (enabled : Nat → Int) :
    List Nat → List NativeCall × Option Nat
  | [] => ([], none)
  | ch :: rest =>
      if enabled ch ≠ 1 then ([NativeCall.enableQuery ch], some ch)
      else
        let r := verify_channels_enable_status enabled rest
        (NativeCall.enableQuery ch :: r.1, r.2)

/-- The eleven per-channel parameter-programming calls of the
`play_analog_signal` configuration loop (generator function, idle state,
frequency, amplitude, offset, symmetry, phase, run duration, wait duration,
repeats count, plus data for custom signals), as indexed device-boundary
calls. -/
def progCallsFor (ch : Nat) : List NativeCall :=
  (List.range 11).map (NativeCall.progCall ch)

/-- `play_analog_signal` up to the device boundary (lines 2431-2479): after
the argument-shape check, `_verify_channels_enable_status` runs before the
per-channel configuration loop, so a raise there propagates with no
parameter-programming call issued.  Returns the boundary call trace and the
channel the precondition failure was raised for, if any. -/
def play_analog_signal (enabled : Nat → Int) (output_channels : List Nat) :
    List NativeCall × Option Nat :=
  let v := verify_channels_enable_status enabled output_channels
  match v.2 with
  | some ch => (v.1, some ch)
  | none => (v.1 ++ output_channels.flatMap progCallsFor, none)

/-- Which native open call `open_connection(config_index)` issues
(lines 1797-1820): `if not config_index` takes the default
`FDwfDeviceOpen` path, so both `None` and `0` open without a configuration
selector; only a nonzero index reaches `FDwfDeviceConfigOpen`. -/
inductive OpenCall where
  | deviceOpen
  | deviceConfigOpen (idx : Int)
deriving DecidableEq

/-- `open_connection(config_index)` reduced to the native call it issues. -/
def open_connection : Option Int → OpenCall
  | none => .deviceOpen
  | some n => if n ≠ 0 then .deviceConfigOpen n else .deviceOpen

/-- `_set_analog_input_trigger_source` (lines 600-619): both native calls
(`FDwfAnalogInTriggerAutoTimeoutSet`, then `FDwfAnalogInTriggerSourceSet`)
are issued unconditionally; only afterwards are both return codes checked
and a single error raised.  Given the two return codes, produce the list of
codes of the calls actually issued, in order, and whether the function
raises. -/
def set_analog_input_trigger_source (r1 r2 : Int) : List Int × Bool :=
  ([r1, r2],
    decide (r1 ≠ SUCCESS_RETURN_CODE) || decide (r2 ≠ SUCCESS_RETURN_CODE))

/-- The exponential frequency schedule of `perform_netwrok_analysis`
(lines 4063-4070):
`hz = freq_stop * 10 ** ((i / (steps - 1) - 1) * log10(freq_stop / freq_start))`,
modelled on the reals. -/
noncomputable def sweep_frequency (freq_start freq_stop : ℝ) (steps : ℕ)
    (i : ℕ) : ℝ :=
  freq_stop *
    (10 : ℝ) ^ (((i : ℝ) / ((steps : ℝ) - 1) - 1) *
      Real.logb 10 (freq_stop / freq_start))

/-- Claim C10: `fill_recorded_samples` with `samples_count = 0` never
executes its drain loop body, so the post-loop read of the fetch-result
local is an unbound local: the call fails with a non-DeviceError runtime
error instead of returning an empty sample sequence. -/
theorem fifo_zero_count_unbound_local (range offset : ℚ)
    (polls : List FifoPoll) :
    fill_recorded_samples range offset polls 0 = DrainOutcome.unboundLocalError ∧
    DrainOutcome.unboundLocalError ≠ DrainOutcome.deviceError := by
  constructor
  · cases polls <;> simp [fill_recorded_samples, fifoLoop, fifoInit]
  · simp

/-- Claim C1 (failing input): a FIFO drain of 3 samples over two polls, the
first losing one sample and the second losing none, loses `L = 1 > 0`
samples in total yet logs neither data-quality warning, because the code
tests only the final poll's `cLost`/`cCorrupted`; the returned sequence
still has length 3. -/
theorem fifo_lost_warning_missed :
    fill_recorded_samples 5 0
        [⟨3, 1, 1, 0, [100], 1⟩, ⟨3, 1, 0, 0, [200], 1⟩] 3 =
      DrainOutcome.ok (([0, 100, 200] : List Int).map (convertSample 5 0))
        false false ∧
    (([⟨3, 1, 1, 0, [100], 1⟩, ⟨3, 1, 0, 0, [200], 1⟩] :
        List FifoPoll).map FifoPoll.lost).sum = 1 :=
  ⟨rfl, by decide⟩

/-- Claim C5 (counterexample): in the FIFO drain, a failing fetch in a
non-final iteration does not raise: the first poll's
`FDwfAnalogInStatusData16` returns `0 ≠ SUCCESS_RETURN_CODE`, yet the drain
keeps collecting and returns a full, warning-free result, refuting
"raises a DeviceError immediately after that failing call, and the
operation produces no partial result". -/
theorem fifo_midloop_fetch_failure_ignored :
    (⟨3, 1, 0, 0, [7], 0⟩ : FifoPoll).fetchCode ≠ SUCCESS_RETURN_CODE ∧
    fill_recorded_samples 5 0 [⟨3, 1, 0, 0, [7], 0⟩, ⟨3, 1, 0, 0, [9], 1⟩] 2 =
      DrainOutcome.ok (([7, 9] : List Int).map (convertSample 5 0))
        false false :=
  ⟨by decide, rfl⟩

/-- Claim C5 (amended): the FIFO drain checks only the fetch return code
left by the final loop iteration, after the loop, raising then; and
`_set_analog_input_trigger_source` issues both of its native calls
unconditionally, raising only afterwards when either code is
non-success. -/
theorem deferred_error_check (range offset : ℚ) (polls : List FifoPoll)
    (samples_count : Nat) (s : FifoState) (c r1 r2 : Int)
    (hloop : fifoLoop samples_count polls (fifoInit samples_count) = some s)
    (hres : s.result = some c) (hc : c ≠ SUCCESS_RETURN_CODE) :
    fill_recorded_samples range offset polls samples_count =
      DrainOutcome.deviceError ∧
    (set_analog_input_trigger_source r1 r2).1.length = 2 ∧
    ((set_analog_input_trigger_source r1 r2).2 = true ↔
      (r1 ≠ SUCCESS_RETURN_CODE ∨ r2 ≠ SUCCESS_RETURN_CODE)) := by
  refine ⟨?_, rfl, ?_⟩
  · simp only [fill_recorded_samples, hloop, hres]
    simp [hc]
  · simp [set_analog_input_trigger_source]

/-- Witness for `deferred_error_check` at a one-poll run whose only fetch
fails with code 0. -/
theorem deferred_error_check_witness :
    fifoLoop 1 [⟨3, 1, 0, 0, [7], 0⟩] (fifoInit 1) =
      some ⟨1, 0, 0, [7], some 0⟩ ∧
    (0 : Int) ≠ SUCCESS_RETURN_CODE ∧
    fill_recorded_samples 5 0 [⟨3, 1, 0, 0, [7], 0⟩] 1 =
      DrainOutcome.deviceError :=
  ⟨by decide, by decide,
    (deferred_error_check 5 0 [⟨3, 1, 0, 0, [7], 0⟩] 1 ⟨1, 0, 0, [7], some 0⟩
      0 0 1 (by decide) rfl (by decide)).1⟩

/-- Claim C9: `open_connection` treats `config_index = 0` as falsy: it is
ignored and the default `FDwfDeviceOpen` path is taken, identically to
passing `None`; only a nonzero index reaches `FDwfDeviceConfigOpen`. -/
theorem open_connection_zero_config_ignored :
    open_connection (some 0) = OpenCall.deviceOpen ∧
    open_connection (some 0) = open_connection none ∧
    ∀ n : Int, open_connection (some n) =
      if n = 0 then OpenCall.deviceOpen else OpenCall.deviceConfigOpen n := by
  refine ⟨rfl, rfl, fun n => ?_⟩
  by_cases h : n = 0 <;> simp [open_connection, h]

/-- Loop invariant of the FIFO drain over loss-free, corruption-free,
success-only poll traces: the counters stay zero, the buffer keeps its
allocated length, and any assigned fetch code is the success code. -/
def CleanInv (samples_count : Nat) (s : FifoState) : Prop :=
  s.cLost = 0 ∧ s.cCorrupted = 0 ∧ s.buf.length = samples_count ∧
  ∀ c, s.result = some c → c = SUCCESS_RETURN_CODE

theorem fifoStep_clean (samples_count : Nat) (p : FifoPoll)
    (hp : p.lost = 0 ∧ p.corrupted = 0 ∧ p.fetchCode = SUCCESS_RETURN_CODE)
    (s : FifoState) (hs : CleanInv samples_count s) :
    CleanInv samples_count (fifoStep samples_count p s) := by
  obtain ⟨hl, hc, hf⟩ := hp
  obtain ⟨sl, sc, sb, sr⟩ := hs
  unfold fifoStep
  split
  · exact ⟨sl, sc, sb, sr⟩
  · split
    · exact ⟨hl, hc, sb, sr⟩
    · refine ⟨hl, hc, ?_, ?_⟩
      · simpa [writeChunk_length] using sb
      · intro c hcode
        simp only [Option.some.injEq] at hcode
        rw [← hcode, hf]

theorem fifoLoop_clean (samples_count : Nat) (polls : List FifoPoll)
    (hpolls : ∀ p ∈ polls, p.lost = 0 ∧ p.corrupted = 0 ∧
      p.fetchCode = SUCCESS_RETURN_CODE) :
    ∀ s s', CleanInv samples_count s →
      fifoLoop samples_count polls s = some s' →
      CleanInv samples_count s' := by
  induction polls with
  | nil =>
      intro s s' hs hrun
      unfold fifoLoop at hrun
      split at hrun
      · exact absurd hrun (by simp)
      · obtain rfl : s = s' := by simpa using hrun
        exact hs
  | cons p rest ih =>
      intro s s' hs hrun
      unfold fifoLoop at hrun
      split at hrun
      · exact ih (fun q hq => hpolls q (List.mem_cons_of_mem p hq))
          (fifoStep samples_count p s) s'
          (fifoStep_clean samples_count p (hpolls p (List.mem_cons_self p rest)) s hs)
          hrun
      · obtain rfl : s = s' := by simpa using hrun
        exact hs

theorem fifoInit_clean (samples_count : Nat) :
    CleanInv samples_count (fifoInit samples_count) := by
  refine ⟨rfl, rfl, by simp [fifoInit], ?_⟩
  intro c hcode
  simp [fifoInit] at hcode

/-- Claim C2: a FIFO drain over a trace on which every poll reports
`lost = 0` and `corrupted = 0` (and every fetch succeeds, implicit in the
drain returning normally) produces exactly `samples_count` converted
samples and logs neither the loss nor the corruption warning. -/
theorem fifo_zero_loss_drain (range offset : ℚ) (polls : List FifoPoll)
    (samples_count : Nat) (samples : List ℚ) (wl wc : Bool)
    (hcount : 0 < samples_count)
    (hclean : ∀ p ∈ polls, p.lost = 0 ∧ p.corrupted = 0 ∧
      p.fetchCode = SUCCESS_RETURN_CODE)
    (hrun : fill_recorded_samples range offset polls samples_count =
      DrainOutcome.ok samples wl wc) :
    samples.length = samples_count ∧ wl = false ∧ wc = false := by
  unfold fill_recorded_samples at hrun
  cases hloop : fifoLoop samples_count polls (fifoInit samples_count) with
  | none => rw [hloop] at hrun; simp at hrun
  | some s =>
      rw [hloop] at hrun
      dsimp only at hrun
      obtain ⟨sl, sc, sb, sr⟩ :=
        fifoLoop_clean samples_count polls hclean (fifoInit samples_count) s
          (fifoInit_clean samples_count) hloop
      cases hres : s.result with
      | none => rw [hres] at hrun; simp at hrun
      | some c =>
          rw [hres] at hrun
          rw [sr c hres] at hrun
          simp only [SUCCESS_RETURN_CODE, ne_eq, not_true_eq_false,
            if_false, ite_false] at hrun
          obtain ⟨h1, h2, h3⟩ := by
            simpa using hrun
          refine ⟨?_, ?_, ?_⟩
          · rw [← h1, List.length_map, sb]
          · rw [← h2]; simp [sl]
          · rw [← h3]; simp [sc]

/-- Witness for `fifo_zero_loss_drain`: a two-sample drain satisfied by one
clean poll. -/
theorem fifo_zero_loss_drain_witness :
    0 < 2 ∧
    fill_recorded_samples 5 0 [⟨3, 2, 0, 0, [3, 4], 1⟩] 2 =
      DrainOutcome.ok (([3, 4] : List Int).map (convertSample 5 0))
        false false ∧
    (([3, 4] : List Int).map (convertSample 5 0)).length = 2 :=
  ⟨by decide, rfl,
    (fifo_zero_loss_drain 5 0 [⟨3, 2, 0, 0, [3, 4], 1⟩] 2
      (([3, 4] : List Int).map (convertSample 5 0)) false false
      (by decide) (by decide) rfl).1⟩

/-- Claim C6: the samples returned by a completed FIFO drain are exactly the
final raw buffer mapped once through `r * (range / 65536) + offset` with the
channel's range and offset, and for a positive range the conversion is
monotonically non-decreasing in the raw value. -/
theorem fifo_conversion_once_monotone (range offset : ℚ)
    (polls : List FifoPoll) (samples_count : Nat) (s : FifoState)
    (samples : List ℚ) (wl wc : Bool) (r r' : Int)
    (hrange : 0 < range)
    (hloop : fifoLoop samples_count polls (fifoInit samples_count) = some s)
    (hrun : fill_recorded_samples range offset polls samples_count =
      DrainOutcome.ok samples wl wc)
    (hrr : r ≤ r') :
    samples = s.buf.map (convertSample range offset) ∧
    convertSample range offset r = (r : ℚ) * (range / 65536) + offset ∧
    convertSample range offset r ≤ convertSample range offset r' := by
  refine ⟨?_, rfl, ?_⟩
  · unfold fill_recorded_samples at hrun
    rw [hloop] at hrun
    dsimp only at hrun
    cases hres : s.result with
    | none => rw [hres] at hrun; simp at hrun
    | some c =>
        rw [hres] at hrun
        by_cases hc : c ≠ SUCCESS_RETURN_CODE
        · simp [hc] at hrun
        · push_neg at hc
          subst hc
          dsimp only at hrun
          rw [if_neg (by simp)] at hrun
          simp only [DrainOutcome.ok.injEq] at hrun
          exact hrun.1.symm
  · unfold convertSample
    have hfac : (0 : ℚ) ≤ range / 65536 :=
      le_of_lt (div_pos hrange (by norm_num))
    have hcast : (r : ℚ) ≤ (r' : ℚ) := by exact_mod_cast hrr
    exact add_le_add_right (mul_le_mul_of_nonneg_right hcast hfac) offset

/-- Witness for `fifo_conversion_once_monotone` on a concrete two-sample
drain with raw values 1 ≤ 2. -/
theorem fifo_conversion_once_monotone_witness :
    (0 : ℚ) < 5 ∧ (1 : Int) ≤ 2 ∧
    convertSample 5 0 1 ≤ convertSample 5 0 2 :=
  ⟨by norm_num, by decide,
    (fifo_conversion_once_monotone 5 0 [⟨3, 2, 0, 0, [3, 4], 1⟩] 2
      ⟨2, 0, 0, [3, 4], some 1⟩ (([3, 4] : List Int).map (convertSample 5 0))
      false false 1 2 (by norm_num) (by decide) rfl (by decide)).2.2⟩

/-- Claim C3: when the circular drain's polling loop exits in the done state
with final write cursor `c`, the returned sequence is the raw ring rotated
as `ring[c:] + ring[:c]` (oldest sample first) and then converted; when
`c = 0` no rotation is applied. -/
theorem circ_drain_rotation (range offset : ℚ) (polls : List CircPoll)
    (samples_count : Nat) (s : CircState)
    (hloop : circLoop samples_count polls (circInit samples_count) =
      CircOut.done s) :
    (0 < s.iSample → s.iSample < samples_count →
      fill_recorded_samples_2 range offset polls samples_count =
        DrainOutcome.ok
          ((s.ring.drop s.iSample ++ s.ring.take s.iSample).map
            (convertSample range offset))
          (decide (0 < s.cLost)) (decide (0 < s.cCorrupted))) ∧
    (s.iSample = 0 →
      fill_recorded_samples_2 range offset polls samples_count =
        DrainOutcome.ok (s.ring.map (convertSample range offset))
          (decide (0 < s.cLost)) (decide (0 < s.cCorrupted))) := by
  constructor
  · intro h0 _
    have hne : s.iSample ≠ 0 := by omega
    unfold fill_recorded_samples_2
    rw [hloop]
    simp [hne]
  · intro h0
    unfold fill_recorded_samples_2
    rw [hloop]
    simp [h0]

/-- Witness for `circ_drain_rotation`: a one-poll circular drain of a
2-slot ring ending in the done state with cursor 1, returning the rotated
ring. -/
theorem circ_drain_rotation_witness :
    0 < 1 ∧ 1 < 2 ∧
    fill_recorded_samples_2 5 0 [⟨2, 1, 0, 0, [5], 1⟩] 2 =
      DrainOutcome.ok
        ((([5, 0] : List Int).drop 1 ++ ([5, 0] : List Int).take 1).map
          (convertSample 5 0))
        (decide ((0 : Nat) < 0)) (decide ((0 : Nat) < 0)) :=
  ⟨by decide, by decide,
    (circ_drain_rotation 5 0 [⟨2, 1, 0, 0, [5], 1⟩] 2
      ⟨1, [5, 0], 0, 0, some 1⟩ (by decide)).1 (by decide) (by decide)⟩

theorem verify_isSome (enabled : Nat → Int) (channels : List Nat) :
    (verify_channels_enable_status enabled channels).2.isSome ↔
      ∃ ch ∈ channels, enabled ch ≠ 1 := by
  induction channels with
  | nil => simp [verify_channels_enable_status]
  | cons ch rest ih =>
      by_cases h : enabled ch ≠ 1
      · simp [verify_channels_enable_status, h]
      · simp only [verify_channels_enable_status, h, if_false, ite_false]
        simp only [List.mem_cons]
        constructor
        · intro hs
          obtain ⟨c, hc, hc1⟩ := ih.mp hs
          exact ⟨c, Or.inr hc, hc1⟩
        · rintro ⟨c, hc | hc, hc1⟩
          · exact absurd hc1 (by rw [hc] at *; exact h)
          · exact ih.mpr ⟨c, hc, hc1⟩

theorem verify_trace_queries (enabled : Nat → Int) (channels : List Nat) :
    ∀ call ∈ (verify_channels_enable_status enabled channels).1,
      ∃ ch, call = NativeCall.enableQuery ch := by
  induction channels with
  | nil => simp [verify_channels_enable_status]
  | cons ch rest ih =>
      by_cases h : enabled ch ≠ 1
      · simp [verify_channels_enable_status, h]
      · simp only [verify_channels_enable_status, h, if_false, ite_false]
        intro call hcall
        rcases List.mem_cons.mp hcall with hc | hc
        · exact ⟨ch, hc⟩
        · exact ih call hc

theorem play_snd (enabled : Nat → Int) (channels : List Nat) :
    (play_analog_signal enabled channels).2 =
      (verify_channels_enable_status enabled channels).2 := by
  unfold play_analog_signal
  cases h : (verify_channels_enable_status enabled channels).2 <;> simp [h]

/-- Claim C4: an enable-gated flow such as `play_analog_signal` raises its
precondition failure exactly when some channel in the given list has a
queried enable state other than 1, and when it raises, the boundary trace
contains only enable-state queries: no parameter-programming call has
reached the device. -/
theorem play_enable_gate (enabled : Nat → Int) (channels : List Nat) :
    ((play_analog_signal enabled channels).2.isSome ↔
      ∃ ch ∈ channels, enabled ch ≠ 1) ∧
    ((play_analog_signal enabled channels).2.isSome →
      ∀ call ∈ (play_analog_signal enabled channels).1,
        ∃ ch, call = NativeCall.enableQuery ch) := by
  constructor
  · rw [play_snd]
    exact verify_isSome enabled channels
  · intro hsome call hcall
    rw [play_snd] at hsome
    have hv : ∃ c, (verify_channels_enable_status enabled channels).2 = some c :=
      Option.isSome_iff_exists.mp hsome
    obtain ⟨c, hc⟩ := hv
    simp only [play_analog_signal, hc] at hcall
    exact verify_trace_queries enabled channels call hcall

/-- Claim C7: the network/impedance-analysis frequency schedule
`f_i = freq_stop * 10^((i/(steps-1) - 1) * log10(freq_stop/freq_start))`
starts exactly at `freq_start`, ends exactly at `freq_stop`, and is strictly
increasing across the `steps` points, for `steps ≥ 2` and
`0 < freq_start < freq_stop` (real-number model of the float
arithmetic). -/
theorem sweep_schedule_exponential (freq_start freq_stop : ℝ) (steps : ℕ)
    (hsteps : 2 ≤ steps) (h0 : 0 < freq_start) (hlt : freq_start < freq_stop) :
    sweep_frequency freq_start freq_stop steps 0 = freq_start ∧
    sweep_frequency freq_start freq_stop steps (steps - 1) = freq_stop ∧
    ∀ i j : ℕ, i < j → j ≤ steps - 1 →
      sweep_frequency freq_start freq_stop steps i <
        sweep_frequency freq_start freq_stop steps j := by
  have hstop : 0 < freq_stop := h0.trans hlt
  have hdiv : (0 : ℝ) < freq_stop / freq_start := div_pos hstop h0
  have hio : (1 : ℝ) < freq_stop / freq_start := (one_lt_div h0).mpr hlt
  have hL : 0 < Real.logb 10 (freq_stop / freq_start) :=
    Real.logb_pos (by norm_num) hio
  have hden : (0 : ℝ) < (steps : ℝ) - 1 := by
    have h2 : (2 : ℝ) ≤ (steps : ℝ) := by exact_mod_cast hsteps
    linarith
  have key : ∀ x : ℝ,
      (10 : ℝ) ^ (x * Real.logb 10 (freq_stop / freq_start)) =
        (freq_stop / freq_start) ^ x := by
    intro x
    rw [mul_comm, Real.rpow_mul (by norm_num : (0 : ℝ) ≤ 10),
      Real.rpow_logb (by norm_num) (by norm_num) hdiv]
  refine ⟨?_, ?_, ?_⟩
  · unfold sweep_frequency
    rw [show ((0 : ℕ) : ℝ) / ((steps : ℝ) - 1) - 1 = -1 by simp, key,
      Real.rpow_neg_one, inv_div, mul_comm freq_stop (freq_start / freq_stop),
      div_mul_cancel₀ freq_start hstop.ne']
  · unfold sweep_frequency
    rw [Nat.cast_sub (by omega : 1 ≤ steps), Nat.cast_one, div_self hden.ne',
      sub_self, zero_mul, Real.rpow_zero, mul_one]
  · intro i j hij hjle
    unfold sweep_frequency
    refine (mul_lt_mul_left hstop).mpr ?_
    rw [key, key]
    refine (Real.rpow_lt_rpow_left_iff hio).mpr ?_
    refine sub_lt_sub_right ?_ 1
    exact (div_lt_div_iff_of_pos_right hden).mpr (by exact_mod_cast hij)

/-- Witness for `sweep_schedule_exponential` at the spec's example sweep
`steps = 5, freq_start = 100, freq_stop = 100000`. -/
theorem sweep_schedule_exponential_witness :
    2 ≤ 5 ∧ (0 : ℝ) < 100 ∧ (100 : ℝ) < 100000 ∧
    sweep_frequency 100 100000 5 0 = 100 :=
  ⟨by norm_num, by norm_num, by norm_num,
    (sweep_schedule_exponential 100 100000 5 (by norm_num) (by norm_num)
      (by norm_num)).1⟩

theorem multiFetch_result (dataOf : Nat → List Int) (codeOf : Nat → Int)
    (pos len : Nat) (channels : List Nat) :
    ∀ (bufs : List (List Int)) (r0 : Option Int) (last : Nat),
      channels.getLast? = some last → channels.length = bufs.length →
      (multiFetch dataOf codeOf pos len channels bufs r0).2 =
        some (codeOf last) := by
  induction channels with
  | nil => intro bufs r0 last h _; simp at h
  | cons ch chs ih =>
      intro bufs r0 last h hlen
      cases bufs with
      | nil => simp at hlen
      | cons b bs =>
          cases chs with
          | nil =>
              have : ch = last := by simpa using h
              subst this
              cases bs with
              | nil => simp [multiFetch]
              | cons b2 bs2 => simp at hlen
          | cons ch2 chs2 =>
              have h2 : (ch2 :: chs2).getLast? = some last := by
                rwa [List.getLast?_cons_cons] at h
              simp only [multiFetch]
              exact ih bs (some (codeOf ch)) last h2 (by simpa using hlen)

/-- Claim C8: in the multi-channel FIFO drain, every channel's samples are
converted with the range and offset queried from the first channel of the
list, whatever the other channels' own range and offset would be; and each
fetch pass leaves in the shared result variable only the last channel's
fetch return code (which is the sole code the post-loop check reads). -/
theorem multi_first_channel_conversion (rangeOf offsetOf : Nat → ℚ)
    (ch0 : Nat) (chs : List Nat) (polls : List MultiPoll)
    (samples_count : Nat) (s : MultiState) (samples : List (List ℚ))
    (wl wc : Bool)
    (hchs : chs ≠ [])
    (hloop : multiLoop samples_count (ch0 :: chs) polls
      (multiInit samples_count (ch0 :: chs)) = some s)
    (hrun : fill_recorded_samples_on_channels rangeOf offsetOf (ch0 :: chs)
      polls samples_count = MultiOutcome.ok samples wl wc) :
    samples = s.bufs.map
      (fun b => b.map (convertSample (rangeOf ch0) (offsetOf ch0))) ∧
    ∀ (p : MultiPoll) (bufs : List (List Int)) (pos len : Nat)
      (r0 : Option Int) (last : Nat),
      (ch0 :: chs).getLast? = some last →
      (ch0 :: chs).length = bufs.length →
      (multiFetch p.dataOf p.fetchCodeOf pos len (ch0 :: chs) bufs r0).2 =
        some (p.fetchCodeOf last) := by
  constructor
  · unfold fill_recorded_samples_on_channels at hrun
    rw [hloop] at hrun
    dsimp only at hrun
    cases hres : s.result with
    | none => rw [hres] at hrun; simp at hrun
    | some c =>
        rw [hres] at hrun
        by_cases hc : c ≠ SUCCESS_RETURN_CODE
        · simp [hc] at hrun
        · push_neg at hc
          subst hc
          dsimp only at hrun
          rw [if_neg (by simp)] at hrun
          simp only [MultiOutcome.ok.injEq] at hrun
          exact hrun.1.symm
  · intro p bufs pos len r0 last hlast hlen
    exact multiFetch_result p.dataOf p.fetchCodeOf pos len (ch0 :: chs)
      bufs r0 last hlast hlen

/-- Witness for `multi_first_channel_conversion`: a two-channel, one-sample
drain in which the channels have different configured ranges and offsets;
both buffers are converted with channel 0's range 5 and offset 0. -/
theorem multi_first_channel_conversion_witness :
    ([1] : List Nat) ≠ [] ∧
    multiLoop 1 [0, 1]
        [⟨3, 1, 0, 0, fun ch => if ch = 0 then [10] else [20], fun _ => 1⟩]
        (multiInit 1 [0, 1]) =
      some ⟨1, 0, 0, [[10], [20]], some 1⟩ ∧
    (([[10], [20]] : List (List ℚ))).map
        (fun b => b.map (fun r => r * ((5 : ℚ) / 65536))) =
      ([[10], [20]] : List (List Int)).map
        (fun b => b.map
          (convertSample ((fun ch => if ch = 0 then (5 : ℚ) else 7) 0)
            ((fun ch => if ch = 0 then (0 : ℚ) else 1) 0))) := by
  refine ⟨by decide, by decide, ?_⟩
  have h := (multi_first_channel_conversion
    (fun ch => if ch = 0 then (5 : ℚ) else 7)
    (fun ch => if ch = 0 then (0 : ℚ) else 1) 0 [1]
    [⟨3, 1, 0, 0, fun ch => if ch = 0 then [10] else [20], fun _ => 1⟩] 1
    ⟨1, 0, 0, [[10], [20]], some 1⟩
    (([[10], [20]] : List (List Int)).map
      (fun b => b.map
        (convertSample ((fun ch => if ch = 0 then (5 : ℚ) else 7) 0)
          ((fun ch => if ch = 0 then (0 : ℚ) else 1) 0))))
    false false (by simp) (by decide) (by rfl)).1
  rw [← h]
  norm_num [convertSample]

end PytestAnalog
